import Mathlib

/-!
Shallow embedding of `remoteconfig.go` (package `remoteconfig`): a reflective
configuration validator.  Runtime Go values reached by the engine are modelled
by the inductive `GoValue`; the reflection-based dispatcher
`validateConfigWithReflection` and its five kind handlers are translated
function by function from the source.  A Go `error` result is modelled by
`Outcome` (`ok` for a nil error, `fail msg` for a non-nil error carrying the
formatted message); a runtime panic of the reflect package is modelled by the
third constructor `fault`.
-/

/-- Result of running the validator on a value: `ok` models a `nil` Go error,
`fail msg` a non-nil error with message `msg`, and `fault msg` a runtime panic
raised by the reflect package (e.g. `IsNil` on a non-nilable value). -/
inductive Outcome where
  | ok : Outcome
  | fail (msg : String) : Outcome
  | fault (msg : String) : Outcome
deriving DecidableEq, Repr

mutual
/-- A runtime Go value as seen by the reflection dispatcher, carrying exactly
the data the source functions consult:
* `ptr elemName validater target`: a pointer value; `elemName` is
  `typeOf.Elem().Name()`; `validater = some r` means the pointer type
  implements the `Validater` interface and calling `Validate()` on this value
  returns `r` (`none` = nil error, `some msg` = error with message `msg`);
  `validater = none` means the interface is not implemented.  `target = none`
  models a nil pointer.
* `structV name fields`: a struct with its fields in declaration order.
* `sliceV name elems`: a slice; `elems = none` models a nil slice
  (`Len() = 0`, `IsNil() = true`).
* `mapV name entries`: a map with its key/value entries listed in the
  iteration order of `MapKeys()`; `entries = none` models a nil map.
* `strV name s`: a string value of type name `name` (`"string"` for the
  plain string type).
* `otherV desc`: any value of a kind the dispatcher does not handle
  (numbers, booleans, ...), `desc` describing the value. -/
inductive GoValue where
  | ptr (elemName : String) (validater : Option (Option String)) (target : Option GoValue) : GoValue
  | structV (name : String) (fields : List GoField) : GoValue
  | sliceV (name : String) (elems : Option (List GoValue)) : GoValue
  | mapV (name : String) (entries : Option (List GoEntry)) : GoValue
  | strV (name : String) (s : String) : GoValue
  | otherV (desc : String) : GoValue

/-- A struct field: its declared name, the value of its `remoteconfig` struct
tag (the result of `typeField.Tag.Get("remoteconfig")`), and its runtime
value. -/
inductive GoField where
  | mk (name : String) (tag : String) (value : GoValue) : GoField

/-- A map entry: key and value, in the order produced by `MapKeys()`. -/
inductive GoEntry where
  | mk (key : GoValue) (val : GoValue) : GoEntry
end

/-- Declared name of a struct field. -/
def GoField.name : GoField → String
  | .mk n _ _ => n

/-- The field's `remoteconfig` tag string. -/
def GoField.tag : GoField → String
  | .mk _ t _ => t

/-- The field's runtime value. -/
def GoField.value : GoField → GoValue
  | .mk _ _ v => v

/-- Key of a map entry. -/
def GoEntry.key : GoEntry → GoValue
  | .mk k _ => k

/-- Value of a map entry. -/
def GoEntry.val : GoEntry → GoValue
  | .mk _ v => v

/-- Embeds Go's `strings.Contains(s, substr)`: substring containment. -/
def goContains (s substr : String) : Bool :=
  decide (List.IsInfix substr.toList s.toList)

/-- Embeds `TagOptions` from the source. -/
structure TagOptions where
  Optional : Bool
deriving DecidableEq, Repr

/-- Embeds `readTags`: the argument is the field's `remoteconfig` tag string
(what `typeField.Tag.Get("remoteconfig")` returns in the source, stored in
`GoField.tag` in this embedding); `Optional` is set iff the string contains
`"optional"` as a substring (`strings.Contains`). -/
def readTags (tags : String) : TagOptions :=
  { Optional := goContains tags "optional" }

/-- The reflect kind name of a value, used in panic messages. -/
def goKindName : GoValue → String
  | .ptr _ _ _ => "ptr"
  | .structV _ _ => "struct"
  | .sliceV _ _ => "slice"
  | .mapV _ _ => "map"
  | .strV _ _ => "string"
  | .otherV _ => "other"

/-- Embeds `reflect.Value.IsNil`: defined (`some b`) exactly on the nilable
kinds the model contains (pointer, slice, map); on any other kind the real
`IsNil` panics, modelled by `none`. -/
def goIsNil : GoValue → Option Bool
  | .ptr _ _ target => some target.isNone
  | .sliceV _ elems => some elems.isNone
  | .mapV _ entries => some entries.isNone
  | _ => none

/-- Embeds `handleString`: an empty string is an error, anything else passes. -/
def handleString (name : String) (s : String) : Outcome :=
  if s = "" then .fail ("String Field: " ++ name ++ ", contains an empty string")
  else .ok

mutual
/-- Embeds `validateConfigWithReflection`: dispatch on the runtime kind of the
value; kinds other than ptr/struct/slice/map/string fall through and return a
nil error. -/
def validateConfigWithReflection : GoValue → Outcome
  | .ptr elemName validater target => handlePtr elemName validater target
  | .structV _ fields => handleStruct fields
  | .sliceV name elems => handleArraySlice name elems
  | .mapV name entries => handleMap name entries
  | .strV name s => handleString name s
  | .otherV _ => .ok

/-- Embeds `handlePtr`: if the pointer type implements `Validater`, call
`Validate()` and wrap a non-nil result, doing nothing else; otherwise
dereference (`valueOf.Elem().Interface()` panics on a nil pointer) and recurse
into the pointed-to value, wrapping any failure with the element type name. -/
def handlePtr (elemName : String) (validater : Option (Option String)) (target : Option GoValue) : Outcome :=
  match validater with
  | some result =>
    match result with
    | some msg => .fail ("Validater Field: " ++ elemName ++ ", failed to validate with error, " ++ msg)
    | none => .ok
  | none =>
    match target with
    | none => .fault "reflect: call of reflect.Value.Interface on zero Value"
    | some v =>
      match validateConfigWithReflection v with
      | .fail msg => .fail ("Sub Field of " ++ elemName ++ ", failed to validate with error, " ++ msg)
      | .fault r => .fault r
      | .ok => .ok

/-- Embeds `handleStruct`: fields in declaration order; `IsNil` on a
non-nilable field panics; a nil required field is an error that stops the
loop; a nil optional field is skipped; a non-nil field is validated
recursively and its error, if any, is returned unchanged. -/
def handleStruct : List GoField → Outcome
  | [] => .ok
  | .mk fname ftag fvalue :: rest =>
    match goIsNil fvalue with
    | none => .fault ("reflect: call of reflect.Value.IsNil on " ++ goKindName fvalue ++ " Value")
    | some isNil =>
      if isNil && !(readTags ftag).Optional then
        .fail ("Field: " ++ fname ++ ", not set")
      else if isNil && (readTags ftag).Optional then
        handleStruct rest
      else
        match validateConfigWithReflection fvalue with
        | .fail msg => .fail msg
        | .fault r => .fault r
        | .ok => handleStruct rest

/-- Embeds `handleArraySlice`: a length-zero collection (including a nil
slice) is an error; otherwise every element is validated in index order. -/
def handleArraySlice (name : String) (elems : Option (List GoValue)) : Outcome :=
  match elems with
  | none => .fail ("Slice/Array Field: " ++ name ++ ", is empty")
  | some [] => .fail ("Slice/Array Field: " ++ name ++ ", is empty")
  | some (v :: rest) => validateList (v :: rest)

/-- Embeds `handleMap`: a map with zero entries (including a nil map) is an
error; otherwise every value is validated in `MapKeys()` order. -/
def handleMap (name : String) (entries : Option (List GoEntry)) : Outcome :=
  match entries with
  | none => .fail ("Map Field: " ++ name ++ ", is empty")
  | some [] => .fail ("Map Field: " ++ name ++ ", is empty")
  | some (e :: rest) => validateEntryList (e :: rest)

/-- The element loop of `handleArraySlice`: validate each element, returning
the first failure unchanged. -/
def validateList : List GoValue → Outcome
  | [] => .ok
  | v :: rest =>
    match validateConfigWithReflection v with
    | .fail msg => .fail msg
    | .fault r => .fault r
    | .ok => validateList rest

/-- The entry loop of `handleMap`: validate each entry's value (never its
key), returning the first failure unchanged. -/
def validateEntryList : List GoEntry → Outcome
  | [] => .ok
  | .mk _ v :: rest =>
    match validateConfigWithReflection v with
    | .fail msg => .fail msg
    | .fault r => .fault r
    | .ok => validateEntryList rest
end

/-- Result of the HTTP fetch in `DownloadJSONValidate`: either the transport
errored (`http.Get` returned a non-nil error with message `msg`), or a
response arrived with a status code and a body. -/
inductive FetchResult where
  | transportError (msg : String) : FetchResult
  | response (statusCode : Nat) (body : String) : FetchResult

/-- Embeds `DownloadJSONValidate`: the fetch outcome is passed as data, and the
external JSON decoder is a parameter mapping the response body to either an
error message or the populated object graph.  A transport error is returned
as is; a status other than 200 (`http.StatusOK`) yields the download error; a
decode error yields the decode error message; only then does the validation
engine run on the decoded graph. -/
def DownloadJSONValidate (signedURL : String) (fetch : FetchResult)
    (decode : String → Except String GoValue) : Outcome :=
  match fetch with
  | .transportError msg => .fail msg
  | .response statusCode body =>
    if statusCode ≠ 200 then
      .fail ("Download of JSON failed, URL = " ++ signedURL ++ ", Response Code = " ++ toString statusCode)
    else
      match decode body with
      | .error e => .fail ("Failed to decode JSON, with error, " ++ e)
      | .ok graph => validateConfigWithReflection graph

mutual
/-- Number of `Validater.Validate()` invocations the engine performs while
validating a value, mirroring the executed path of
`validateConfigWithReflection` (short-circuits and panics stop the count
exactly where they stop the engine). -/
def validateCalls : GoValue → Nat
  | .ptr _ validater target =>
    match validater with
    | some _ => 1
    | none =>
      match target with
      | none => 0
      | some v => validateCalls v
  | .structV _ fields => structCalls fields
  | .sliceV _ elems =>
    match elems with
    | none => 0
    | some l => listCalls l
  | .mapV _ entries =>
    match entries with
    | none => 0
    | some l => entryCalls l
  | .strV _ _ => 0
  | .otherV _ => 0

/-- Validate-call count of the field loop of `handleStruct`. -/
def structCalls : List GoField → Nat
  | [] => 0
  | .mk _ ftag fvalue :: rest =>
    match goIsNil fvalue with
    | none => 0
    | some isNil =>
      if isNil && !(readTags ftag).Optional then 0
      else if isNil && (readTags ftag).Optional then structCalls rest
      else
        match validateConfigWithReflection fvalue with
        | .ok => validateCalls fvalue + structCalls rest
        | _ => validateCalls fvalue

/-- Validate-call count of the element loop of `handleArraySlice`. -/
def listCalls : List GoValue → Nat
  | [] => 0
  | v :: rest =>
    match validateConfigWithReflection v with
    | .ok => validateCalls v + listCalls rest
    | _ => validateCalls v

/-- Validate-call count of the entry loop of `handleMap`. -/
def entryCalls : List GoEntry → Nat
  | [] => 0
  | .mk _ v :: rest =>
    match validateConfigWithReflection v with
    | .ok => validateCalls v + entryCalls rest
    | _ => validateCalls v
end

/-- Map entries are validated through their values only: the entry loop equals
the element loop run on the list of entry values. -/
theorem validateEntryList_eq_map (es : List GoEntry) :
    validateEntryList es = validateList (es.map GoEntry.val) := by
  induction es with
  | nil => rfl
  | cons e rest ih =>
    obtain ⟨k, v⟩ := e
    cases h : validateConfigWithReflection v <;>
      simp [validateEntryList, validateList, GoEntry.val, h, ih]

/-- The field loop of `handleStruct` is sequential: a prefix of fields that
validates cleanly leaves the remaining fields to be processed as if alone. -/
theorem handleStruct_append_of_ok (pre rest : List GoField) (h : handleStruct pre = Outcome.ok) :
    handleStruct (pre ++ rest) = handleStruct rest := by
  induction pre with
  | nil => rfl
  | cons f pre ih =>
    obtain ⟨fname, ftag, fvalue⟩ := f
    rw [List.cons_append]
    simp only [handleStruct] at h ⊢
    cases hg : goIsNil fvalue with
    | none => simp [hg] at h
    | some b =>
      simp only [hg] at h ⊢
      by_cases h1 : b && !(readTags ftag).Optional
      · simp [h1] at h
      · simp only [h1, if_false] at h ⊢
        by_cases h2 : b && (readTags ftag).Optional
        · simp only [h2, if_true] at h ⊢
          exact ih h
        · simp only [h2, if_false] at h ⊢
          cases hv : validateConfigWithReflection fvalue <;> simp [hv] at h ⊢
          exact ih h

/-- Claim C1: in `handleStruct` each field at the head of the declaration-order
list is classified exactly once: a nil field with the `optional` tag is
skipped (the loop continues on the remaining fields), a nil field without the
tag yields the `Field: <name>, not set` error with no later field examined
(the result does not depend on the rest of the list), and a non-nil field is
validated through the dispatcher with the first failure or fault propagated
immediately, later fields examined only on success. -/
theorem C1_record_field_classification (fname ftag : String) (fvalue : GoValue) (rest : List GoField) :
    (goIsNil fvalue = some true → (readTags ftag).Optional = true →
      handleStruct (GoField.mk fname ftag fvalue :: rest) = handleStruct rest) ∧
    (goIsNil fvalue = some true → (readTags ftag).Optional = false →
      handleStruct (GoField.mk fname ftag fvalue :: rest) = Outcome.fail ("Field: " ++ fname ++ ", not set")) ∧
    (goIsNil fvalue = some false →
      handleStruct (GoField.mk fname ftag fvalue :: rest) =
        match validateConfigWithReflection fvalue with
        | .ok => handleStruct rest
        | .fail msg => Outcome.fail msg
        | .fault r => Outcome.fault r) := by
  refine ⟨fun h1 h2 => ?_, fun h1 h2 => ?_, fun h1 => ?_⟩ <;>
    simp [handleStruct, h1]
  · simp [h2]
  · simp [h2]
  · cases validateConfigWithReflection fvalue <;> rfl

/-- Witness for C1: a nil optional pointer field is skipped. -/
theorem C1_record_field_classification_witness :
    goIsNil (GoValue.ptr "T" none none) = some true ∧
    (readTags "optional").Optional = true ∧
    handleStruct [GoField.mk "A" "optional" (GoValue.ptr "T" none none)] = handleStruct [] :=
  ⟨rfl, by decide,
   (C1_record_field_classification "A" "optional" (GoValue.ptr "T" none none) []).1 rfl (by decide)⟩

/-- Claim C2: for a pointer whose type implements `Validater`, the result of
`Validate()` is authoritative and exclusive: whatever the pointed-to value is
(the target is universally quantified and never inspected), a nil result
yields success, a non-nil result yields the wrapped `Validater Field` error
naming the element type, and `Validate()` is invoked exactly once. -/
theorem C2_validater_exclusive (elemName : String) (result : Option String) (target : Option GoValue) :
    (validateConfigWithReflection (GoValue.ptr elemName (some result) target) =
      match result with
      | none => Outcome.ok
      | some msg => Outcome.fail ("Validater Field: " ++ elemName ++ ", failed to validate with error, " ++ msg)) ∧
    validateCalls (GoValue.ptr elemName (some result) target) = 1 := by
  refine ⟨?_, by simp [validateCalls]⟩
  cases result <;> simp [validateConfigWithReflection, handlePtr]

/-- Claim C3: a slice of length zero (nil or empty) yields the
`Slice/Array Field ... is empty` error, otherwise every element is validated
in index order with the first failure propagated and later elements
unchecked; a map with zero entries yields the `Map Field ... is empty` error,
otherwise every entry value (never a key: the result only depends on the
value list) is validated in iteration order with the first failure propagated
and the remaining values unchecked. -/
theorem C3_collection_validation :
    (∀ name : String, handleArraySlice name none = Outcome.fail ("Slice/Array Field: " ++ name ++ ", is empty")) ∧
    (∀ name : String, handleArraySlice name (some []) = Outcome.fail ("Slice/Array Field: " ++ name ++ ", is empty")) ∧
    (∀ (name : String) (v : GoValue) (rest : List GoValue),
       handleArraySlice name (some (v :: rest)) = validateList (v :: rest)) ∧
    (∀ (v : GoValue) (rest : List GoValue), validateList (v :: rest) =
       match validateConfigWithReflection v with
       | .ok => validateList rest
       | .fail msg => Outcome.fail msg
       | .fault r => Outcome.fault r) ∧
    (∀ name : String, handleMap name none = Outcome.fail ("Map Field: " ++ name ++ ", is empty")) ∧
    (∀ name : String, handleMap name (some []) = Outcome.fail ("Map Field: " ++ name ++ ", is empty")) ∧
    (∀ (name : String) (e : GoEntry) (rest : List GoEntry),
       handleMap name (some (e :: rest)) = validateEntryList (e :: rest)) ∧
    (∀ (k v : GoValue) (rest : List GoEntry), validateEntryList (GoEntry.mk k v :: rest) =
       match validateConfigWithReflection v with
       | .ok => validateEntryList rest
       | .fail msg => Outcome.fail msg
       | .fault r => Outcome.fault r) ∧
    (∀ (name : String) (es es' : List GoEntry), es.map GoEntry.val = es'.map GoEntry.val →
       handleMap name (some es) = handleMap name (some es')) := by
  refine ⟨fun name => rfl, fun name => rfl, fun name v rest => rfl, ?_, fun name => rfl,
    fun name => rfl, fun name e rest => ?_, ?_, ?_⟩
  · intro v rest
    cases h : validateConfigWithReflection v <;> simp [validateList, h]
  · obtain ⟨k, v⟩ := e
    rfl
  · intro k v rest
    cases h : validateConfigWithReflection v <;> simp [validateEntryList, h]
  · intro name es es' hmap
    cases es with
    | nil =>
      cases es' with
      | nil => rfl
      | cons e' r' => obtain ⟨k', v'⟩ := e'; simp [GoEntry.val] at hmap
    | cons e r =>
      cases es' with
      | nil => obtain ⟨k, v⟩ := e; simp [GoEntry.val] at hmap
      | cons e' r' =>
        obtain ⟨k, v⟩ := e
        obtain ⟨k', v'⟩ := e'
        show validateEntryList _ = validateEntryList _
        rw [validateEntryList_eq_map, validateEntryList_eq_map, hmap]

/-- Witness for C3: two one-entry maps that agree on values but differ on keys
validate identically. -/
theorem C3_collection_validation_witness :
    (GoEntry.mk (GoValue.strV "string" "k") (GoValue.strV "string" "v")).val =
      (GoEntry.mk (GoValue.otherV "42") (GoValue.strV "string" "v")).val ∧
    handleMap "M" (some [GoEntry.mk (GoValue.strV "string" "k") (GoValue.strV "string" "v")]) =
      handleMap "M" (some [GoEntry.mk (GoValue.otherV "42") (GoValue.strV "string" "v")]) :=
  ⟨rfl, C3_collection_validation.2.2.2.2.2.2.2.2 "M"
    [GoEntry.mk (GoValue.strV "string" "k") (GoValue.strV "string" "v")]
    [GoEntry.mk (GoValue.otherV "42") (GoValue.strV "string" "v")] rfl⟩

/-- Claim C4: a string value fails validation exactly when it equals the empty
string, with no trimming (any other string, whitespace included, passes), and
the same classification applies where the dispatcher reaches a string inside
a sequence element or a map entry value. -/
theorem C4_string_empty_iff (name s : String) :
    (validateConfigWithReflection (GoValue.strV name s) =
       if s = "" then Outcome.fail ("String Field: " ++ name ++ ", contains an empty string") else Outcome.ok) ∧
    (∀ rest : List GoValue, validateList (GoValue.strV name s :: rest) =
       if s = "" then Outcome.fail ("String Field: " ++ name ++ ", contains an empty string") else validateList rest) ∧
    (∀ (k : GoValue) (rest : List GoEntry), validateEntryList (GoEntry.mk k (GoValue.strV name s) :: rest) =
       if s = "" then Outcome.fail ("String Field: " ++ name ++ ", contains an empty string") else validateEntryList rest) := by
  refine ⟨rfl, fun rest => ?_, fun k rest => ?_⟩ <;>
    by_cases h : s = "" <;>
      simp [validateList, validateEntryList, validateConfigWithReflection, handleString, h]

set_option maxRecDepth 4000 in
/-- Claim C5 counterexample: a failure inside a record is NOT wrapped with
context at the record level.  A struct `Zs` whose only field `zzz` points to
an empty string produces exactly the error the inner pointer handler
produced — validating the whole struct gives the same result as validating
the pointer alone, and the message mentions neither the record nor the field
name `zzz`. -/
theorem C5_counterexample_record_adds_no_context :
    validateConfigWithReflection
        (GoValue.structV "Zs" [GoField.mk "zzz" "" (GoValue.ptr "string" none (some (GoValue.strV "string" "")))]) =
      Outcome.fail "Sub Field of string, failed to validate with error, String Field: string, contains an empty string" ∧
    validateConfigWithReflection
        (GoValue.structV "Zs" [GoField.mk "zzz" "" (GoValue.ptr "string" none (some (GoValue.strV "string" "")))]) =
      validateConfigWithReflection (GoValue.ptr "string" none (some (GoValue.strV "string" ""))) ∧
    goContains "Sub Field of string, failed to validate with error, String Field: string, contains an empty string" "zzz" = false := by
  refine ⟨rfl, rfl, by decide⟩

/-- Claim C5 (amended): the first failure at any depth is propagated to the
caller without local recovery; pointer-dereference levels wrap it with
`Sub Field of <type>` context, while record, sequence and mapping levels
return the child failure unchanged, adding no context of their own. -/
theorem C5_first_failure_propagation :
    (∀ (fname ftag : String) (fvalue : GoValue) (rest : List GoField) (msg : String),
       goIsNil fvalue = some false → validateConfigWithReflection fvalue = Outcome.fail msg →
       handleStruct (GoField.mk fname ftag fvalue :: rest) = Outcome.fail msg) ∧
    (∀ (elemName : String) (v : GoValue) (msg : String),
       validateConfigWithReflection v = Outcome.fail msg →
       handlePtr elemName none (some v) =
         Outcome.fail ("Sub Field of " ++ elemName ++ ", failed to validate with error, " ++ msg)) ∧
    (∀ (v : GoValue) (rest : List GoValue) (msg : String),
       validateConfigWithReflection v = Outcome.fail msg →
       validateList (v :: rest) = Outcome.fail msg) ∧
    (∀ (k v : GoValue) (rest : List GoEntry) (msg : String),
       validateConfigWithReflection v = Outcome.fail msg →
       validateEntryList (GoEntry.mk k v :: rest) = Outcome.fail msg) := by
  refine ⟨fun fname ftag fvalue rest msg h1 h2 => ?_, fun elemName v msg h => ?_,
    fun v rest msg h => ?_, fun k v rest msg h => ?_⟩
  · simp [handleStruct, h1, h2]
  · simp [handlePtr, h]
  · simp [validateList, h]
  · simp [validateEntryList, h]

/-- Witness for C5 (amended): the pointer level wraps an inner empty-string
failure with `Sub Field of` context. -/
theorem C5_first_failure_propagation_witness :
    validateConfigWithReflection (GoValue.strV "string" "") =
      Outcome.fail "String Field: string, contains an empty string" ∧
    handlePtr "Server" none (some (GoValue.strV "string" "")) =
      Outcome.fail "Sub Field of Server, failed to validate with error, String Field: string, contains an empty string" :=
  ⟨rfl, C5_first_failure_propagation.2.1 "Server" (GoValue.strV "string" "")
    "String Field: string, contains an empty string" rfl⟩

/-- Claim C6: a value of any kind the dispatcher does not handle (numbers,
booleans, ...) passes validation immediately: the fallthrough returns a nil
error for every such value, fails for none of them, and performs no recursion
(in particular no `Validate()` call). -/
theorem C6_other_kind_never_fails (desc : String) :
    validateConfigWithReflection (GoValue.otherV desc) = Outcome.ok ∧
    validateCalls (GoValue.otherV desc) = 0 :=
  ⟨rfl, rfl⟩

/-- Claim C7: a nil pointer whose type does not implement `Validater`, passed
as the root value, makes the engine fault (the panic of
`valueOf.Elem().Interface()` on a nil pointer) instead of returning an error
result. -/
theorem C7_nil_root_without_validater_faults (elemName : String) :
    validateConfigWithReflection (GoValue.ptr elemName none none) =
      Outcome.fault "reflect: call of reflect.Value.Interface on zero Value" := by
  simp [validateConfigWithReflection, handlePtr]

/-- Claim C8: `readTags` sets `Optional` exactly when the string `"optional"`
occurs as a substring anywhere in the field's `remoteconfig` tag string; it
is a total pure function, so absent (empty), malformed or unrecognized
metadata yields the all-defaults annotation. -/
theorem C8_readTags_optional_substring :
    (∀ tags : String, (readTags tags).Optional = true ↔ List.IsInfix "optional".toList tags.toList) ∧
    (readTags "").Optional = false ∧
    (readTags "junk,malformed").Optional = false ∧
    (readTags "foo,optional").Optional = true := by
  refine ⟨fun tags => ?_, by decide, by decide, by decide⟩
  simp [readTags, goContains]

/-- Claim C9: `DownloadJSONValidate` returns a transport error as is, turns a
non-200 status into the download error and a decoder error into the decode
error — in all three cases without invoking the validation engine (the result
is independent of what the decoder would produce) — and runs the engine on
the decoded graph exactly when the status is 200 and the decode succeeds. -/
theorem C9_fetch_and_decode_precede_validation :
    (∀ (url msg : String) (decode : String → Except String GoValue),
       DownloadJSONValidate url (.transportError msg) decode = Outcome.fail msg) ∧
    (∀ (url : String) (code : Nat) (body : String) (decode : String → Except String GoValue),
       code ≠ 200 →
       DownloadJSONValidate url (.response code body) decode =
         Outcome.fail ("Download of JSON failed, URL = " ++ url ++ ", Response Code = " ++ toString code)) ∧
    (∀ (url body e : String) (decode : String → Except String GoValue),
       decode body = .error e →
       DownloadJSONValidate url (.response 200 body) decode =
         Outcome.fail ("Failed to decode JSON, with error, " ++ e)) ∧
    (∀ (url body : String) (decode : String → Except String GoValue) (graph : GoValue),
       decode body = .ok graph →
       DownloadJSONValidate url (.response 200 body) decode = validateConfigWithReflection graph) := by
  refine ⟨fun url msg decode => rfl, fun url code body decode hc => ?_,
    fun url body e decode hd => ?_, fun url body decode graph hd => ?_⟩
  · simp [DownloadJSONValidate, hc]
  · simp [DownloadJSONValidate, hd]
  · simp [DownloadJSONValidate, hd]

/-- Witness for C9: a 500 response yields the download error even when the
decoder would succeed. -/
theorem C9_fetch_and_decode_precede_validation_witness :
    (500 : Nat) ≠ 200 ∧
    DownloadJSONValidate "u" (.response 500 "b") (fun _ => Except.ok (GoValue.otherV "x")) =
      Outcome.fail "Download of JSON failed, URL = u, Response Code = 500" :=
  ⟨by decide, C9_fetch_and_decode_precede_validation.2.1 "u" 500 "b"
    (fun _ => Except.ok (GoValue.otherV "x")) (by decide)⟩

/-- Claim C10: when the field loop reaches a field of a non-nilable kind (a
bare string, struct or other scalar declared directly on the record), the
`IsNil` check faults instead of skipping or validating the field: after any
cleanly-validating prefix of fields, a record continuing with such a field
makes `handleStruct` fault. -/
theorem C10_nonnilable_field_faults (pre : List GoField) (fname ftag : String) (fvalue : GoValue)
    (post : List GoField) (hpre : handleStruct pre = Outcome.ok) (hnn : goIsNil fvalue = none) :
    handleStruct (pre ++ GoField.mk fname ftag fvalue :: post) =
      Outcome.fault ("reflect: call of reflect.Value.IsNil on " ++ goKindName fvalue ++ " Value") := by
  rw [handleStruct_append_of_ok pre _ hpre]
  simp [handleStruct, hnn]

/-- Witness for C10: a bare string field after a passing optional field makes
the record handler fault. -/
theorem C10_nonnilable_field_faults_witness :
    handleStruct [GoField.mk "A" "optional" (GoValue.ptr "T" none none)] = Outcome.ok ∧
    goIsNil (GoValue.strV "string" "x") = none ∧
    handleStruct [GoField.mk "A" "optional" (GoValue.ptr "T" none none),
                  GoField.mk "B" "" (GoValue.strV "string" "x")] =
      Outcome.fault "reflect: call of reflect.Value.IsNil on string Value" :=
  ⟨by decide, rfl,
   C10_nonnilable_field_faults [GoField.mk "A" "optional" (GoValue.ptr "T" none none)]
     "B" "" (GoValue.strV "string" "x") [] (by decide) rfl⟩
